import Mathlib

/-!
Shallow embedding of the earendil daemon core (peel-forward engine, gossip
adjacency signing, rendezvous forwarder, N2R socket registry, control
protocol operations, haven handshake key derivation), translated from the
Rust sources under src/, together with theorems settling the spec claims.

Fingerprints are modelled as byte lists with the byte-lexicographic order
that Rust derives for fixed-size byte arrays.  External crates
(earendil_packet, earendil_crypt, earendil_topology, blake3, sosistab2)
enter the model as abstract function parameters: the daemon code only
composes their results.
-/

set_option autoImplicit false

namespace Earendil

/-- A node fingerprint: hash bytes of the long-term identity public key.
Equality and ordering are byte-lexicographic. -/
abbrev Fingerprint := List Nat

/-- Byte strings (Rust Bytes / Vec of u8). -/
abbrev ByteString := List Nat

/-- A dock: 32-bit port-like label identifying a logical endpoint on a node. -/
abbrev Dock := Nat

/-- Strict byte-lexicographic order on fingerprints, as derived by Rust Ord
on byte arrays (first differing byte decides). -/
def fpLt : Fingerprint → Fingerprint → Bool
  | [], [] => false
  | [], _ :: _ => true
  | _ :: _, [] => false
  | a :: as, b :: bs => if a < b then true else if a = b then fpLt as bs else false

/-- First-match association-list lookup, modelling map get on the concurrent
maps the daemon context holds. -/
def alist_get {α β : Type} [DecidableEq α] : List (α × β) → α → Option β
  | [], _ => none
  | kv :: rest, key => if kv.1 = key then some kv.2 else alist_get rest key

/-- Association-list insert-or-replace, modelling map insert. -/
def alist_put {α β : Type} [DecidableEq α] (l : List (α × β)) (key : α) (v : β) :
    List (α × β) :=
  (key, v) :: l.filter (fun kv => kv.1 ≠ key)

/-- Adjacency descriptor (earendil_topology): signed evidence of a link
between the identities of two neighboring nodes. -/
structure AdjacencyDescriptor where
  left : Fingerprint
  right : Fingerprint
  left_sig : ByteString
  right_sig : ByteString
  unix_timestamp : Nat
deriving DecidableEq, Repr

/-- Adjacency-signing step of one gossip round (gossip.rs, sign_adjacency,
lines 88-113).  The local node builds and signs the descriptor only when its
own fingerprint is strictly less than the neighbor fingerprint; the returned
descriptor is the one submitted to the sign_adjacency RPC, and none means no
RPC is initiated.  The to_sign and sign arguments stand for the canonical
to-sign serialization (earendil_topology) and the identity signature
(earendil_crypt), both external crates. -/
def sign_adjacency (to_sign : AdjacencyDescriptor → ByteString)
    (sign : ByteString → ByteString)
    (local_fp remote_fingerprint : Fingerprint) (now : Nat) :
    Option AdjacencyDescriptor :=
  if fpLt local_fp remote_fingerprint then
    let left_incomplete : AdjacencyDescriptor :=
      { left := local_fp
        right := remote_fingerprint
        left_sig := []
        right_sig := []
        unix_timestamp := now }
    some { left_incomplete with left_sig := sign (to_sign left_incomplete) }
  else
    none

/-- An endpoint: (fingerprint, dock) pair naming a logical destination. -/
structure Endpoint where
  fingerprint : Fingerprint
  dock : Dock
deriving DecidableEq, Repr

/-- An application message (earendil_packet Message), carrying source dock,
destination dock and body bytes. -/
structure Message where
  src_dock : Dock
  dest_dock : Dock
  body : ByteString
deriving DecidableEq, Repr

/-- A reply block: an opaque pre-built onion envelope. -/
abbrev ReplyBlock := ByteString

/-- Inner packet (earendil_packet InnerPacket): a message or a batch of
reply blocks. -/
inductive InnerPacket
  | message (msg : Message)
  | replyBlocks (blocks : List ReplyBlock)
deriving DecidableEq, Repr

/-- A raw onion packet, opaque bytes. -/
abbrev RawPacket := ByteString

/-- Result of peeling one onion layer (earendil_packet PeeledPacket). -/
inductive PeeledPacket
  | forward (next_hop : Fingerprint) (pkt : RawPacket)
  | received (src_fp : Fingerprint) (pkt : InnerPacket)
  | garbledReply (id : Nat) (pkt : ByteString)
deriving DecidableEq, Repr

/-- A reply degarbler held in the degarbler table; anon_fp models
my_anon_isk().public().fingerprint() and key its opaque crypto state. -/
structure Degarbler where
  anon_fp : Fingerprint
  key : Nat
deriving DecidableEq, Repr

/-- Capacity of every socket inbound queue (smol bounded channel of 1000 in
socket bind). -/
def QUEUE_CAPACITY : Nat := 1000

/-- The slice of the daemon context the peel-forward engine touches:
identity fingerprint, neighbor table (fingerprint to connection id), socket
registry keyed by endpoint holding bounded inbound queues, the
anon_destinations reply-block store, and the degarbler table. -/
structure DaemonContext where
  identity_fp : Fingerprint
  table : List (Fingerprint × Nat)
  socket_recv_queues : List (Endpoint × List (Message × Fingerprint))
  anon_destinations : List (Fingerprint × ReplyBlock)
  degarblers : List (Nat × Degarbler)
deriving DecidableEq, Repr

/-- What one iteration of the peel-forward loop did with its packet. -/
inductive Outcome
  | forwarded (next_hop : Fingerprint) (pkt : RawPacket)
  | delivered (dest : Endpoint) (msg : Message) (src_fp : Fingerprint)
  | filedReplyBlocks (src_fp : Fingerprint) (count : Nat)
  | droppedLog (err : String)
deriving DecidableEq, Repr

/-- Terminal delivery of an inner packet (daemon.rs, process_inner_pkt,
lines 207-231).  A Message is routed to the socket queue registered under
the endpoint (dest_fp, msg.dest_dock); sending into a full queue fails as
try_send does, and an unbound destination fails with the bail message.  A
ReplyBlocks batch files every block under the source fingerprint in
anon_destinations.  Errors are returned to the loop body. -/
def process_inner_pkt (ctx : DaemonContext) (inner : InnerPacket)
    (src_fp dest_fp : Fingerprint) : Except String (DaemonContext × Outcome) :=
  match inner with
  | .message msg =>
      let dest : Endpoint := { fingerprint := dest_fp, dock := msg.dest_dock }
      match alist_get ctx.socket_recv_queues dest with
      | some q =>
          if q.length < QUEUE_CAPACITY then
            .ok ({ ctx with socket_recv_queues :=
                     alist_put ctx.socket_recv_queues dest (q ++ [(msg, src_fp)]) },
                 .delivered dest msg src_fp)
          else
            .error "try_send failed: channel full"
      | none => .error "No socket listening on destination"
  | .replyBlocks blocks =>
      .ok ({ ctx with anon_destinations :=
               blocks.foldl (fun acc b => (src_fp, b) :: acc) ctx.anon_destinations },
           .filedReplyBlocks src_fp blocks.length)

/-- Body of one iteration of the peel-forward loop (daemon.rs, lines
233-275), with the question-mark operator reflected as Except.  The peel
and degarble arguments stand for the onion crypto of earendil_packet. -/
def peel_forward_step_exc (peel : RawPacket → Except String PeeledPacket)
    (degarble : Degarbler → ByteString → Except String (InnerPacket × Fingerprint))
    (ctx : DaemonContext) (pkt : RawPacket) :
    Except String (DaemonContext × Outcome) :=
  match peel pkt with
  | .error e => .error e
  | .ok peeled =>
    match peeled with
    | .forward next_hop inner =>
        match alist_get ctx.table next_hop with
        | some _ => .ok (ctx, .forwarded next_hop inner)
        | none => .error "could not find this next hop"
    | .received src_fp inner => process_inner_pkt ctx inner src_fp ctx.identity_fp
    | .garbledReply id gpkt =>
        match alist_get ctx.degarblers id with
        | some dg =>
            match degarble dg gpkt with
            | .error e => .error e
            | .ok (inner, src_fp) => process_inner_pkt ctx inner src_fp dg.anon_fp
        | none => .error "no degarbler for this garbled pkt"

/-- One supervised iteration of the peel-forward loop: an error terminates
the loop body, upon which the Immortal supervisor (daemon.rs lines 92-95)
logs it via log_error and respawns the loop immediately, so the packet is
dropped with a log message and the context is left as it was. -/
def peel_forward_step (peel : RawPacket → Except String PeeledPacket)
    (degarble : Degarbler → ByteString → Except String (InnerPacket × Fingerprint))
    (ctx : DaemonContext) (pkt : RawPacket) : DaemonContext × Outcome :=
  match peel_forward_step_exc peel degarble ctx pkt with
  | .ok r => r
  | .error e => (ctx, .droppedLog e)

/-- The supervised peel-forward engine over a stream of raw packets: every
packet is consumed in order, failures are logged drops, and processing
always continues with the next packet. -/
def peel_forward_run (peel : RawPacket → Except String PeeledPacket)
    (degarble : Degarbler → ByteString → Except String (InnerPacket × Fingerprint)) :
    DaemonContext → List RawPacket → DaemonContext × List Outcome
  | ctx, [] => (ctx, [])
  | ctx, p :: ps =>
      let s := peel_forward_step peel degarble ctx p
      let r := peel_forward_run peel degarble s.1 ps
      (r.1, s.2 :: r.2)

/-- An endpoint has no usable inbound queue: either no socket is bound
there, or the bound queue is at capacity. -/
def queue_unavailable (ctx : DaemonContext) (ep : Endpoint) : Prop :=
  alist_get ctx.socket_recv_queues ep = none ∨
  ∃ q, alist_get ctx.socket_recv_queues ep = some q ∧ QUEUE_CAPACITY ≤ q.length

/-- The delivery-failure situations of the peel-forward engine: next hop
absent from the neighbor table, a Message whose destination endpoint has no
usable queue, a garbled reply with no degarbler for its id, or a degarbled
Message whose destination endpoint has no usable queue. -/
def delivery_failure (peel : RawPacket → Except String PeeledPacket)
    (degarble : Degarbler → ByteString → Except String (InnerPacket × Fingerprint))
    (ctx : DaemonContext) (pkt : RawPacket) : Prop :=
  (∃ n p, peel pkt = .ok (.forward n p) ∧ alist_get ctx.table n = none) ∨
  (∃ s m, peel pkt = .ok (.received s (.message m)) ∧
    queue_unavailable ctx { fingerprint := ctx.identity_fp, dock := m.dest_dock }) ∨
  (∃ id g, peel pkt = .ok (.garbledReply id g) ∧ alist_get ctx.degarblers id = none) ∨
  (∃ id g dg s m, peel pkt = .ok (.garbledReply id g) ∧
    alist_get ctx.degarblers id = some dg ∧ degarble dg g = .ok (.message m, s) ∧
    queue_unavailable ctx { fingerprint := dg.anon_fp, dock := m.dest_dock })

/-- The socket value built by the daemon/socket.rs sketch: caller-supplied
anonymous-identity handle, bound dock, and the receiving end of the bounded
inbound channel (modelled by a numeric channel id). -/
structure SketchSocket where
  id : Option String
  dock : Dock
  recv_incoming : Nat
deriving DecidableEq, Repr

/-- Socket bind as written in daemon/socket.rs (Socket::bind, lines 18-28):
a fresh bounded(1000) channel is created (its identity modelled by the chan
argument) and its sending end is inserted into ctx.socket_recv_queues under
the key dock — the dock alone, not an (identity fingerprint, dock) endpoint.
Returns the updated registry and the socket. -/
def socket_bind (queues : List (Dock × Nat)) (id : Option String) (dock : Dock)
    (chan : Nat) : List (Dock × Nat) × SketchSocket :=
  (alist_put queues dock chan, { id := id, dock := dock, recv_incoming := chan })

/-- State of the rendezvous forwarder (daemon.rs, rendezvous_forward_loop,
lines 306-338): the relay's registered havens and the seen_srcs memo of
(source endpoint, destination endpoint) pairs. -/
structure RdvState where
  registered_havens : List Fingerprint
  seen_srcs : List (Endpoint × Endpoint)
deriving DecidableEq, Repr

/-- What the rendezvous forwarder did with one forward request. -/
inductive RdvOutcome
  | forwarded (body : ByteString × Endpoint) (dest : Endpoint)
  | droppedWarn (dest_fp : Fingerprint)
deriving DecidableEq, Repr

/-- One iteration of the rendezvous forwarder on a parsed forward request
(inner, dest_ep) received from src_endpoint (daemon.rs lines 314-336):
destination registered as a haven means the (src, dest) pair is memoized
and the request forwarded; otherwise a previously memoized (dest, src) pair
still lets the request through (return direction); otherwise the request is
dropped with a warning naming the unregistered fingerprint. -/
def rendezvous_forward_once (st : RdvState) (inner : ByteString)
    (src_endpoint dest_ep : Endpoint) : RdvState × RdvOutcome :=
  let is_valid_dest : Bool := decide (dest_ep.fingerprint ∈ st.registered_havens)
  let is_seen_src : Bool := decide ((dest_ep, src_endpoint) ∈ st.seen_srcs)
  let st2 := if is_valid_dest then
    { st with seen_srcs := (src_endpoint, dest_ep) :: st.seen_srcs }
  else st
  if is_valid_dest || is_seen_src then
    (st2, .forwarded (inner, src_endpoint) dest_ep)
  else
    (st2, .droppedWarn dest_ep.fingerprint)

/-- Identity descriptor as consulted by route_to_instructs: only its onion
public key field is read (relay_graph.identity(fp).onion_pk). -/
structure IdentityDescriptor where
  onion_pk : ByteString
deriving DecidableEq, Repr

/-- A forward instruction for one onion hop (earendil_packet). -/
structure ForwardInstruction where
  this_pubkey : ByteString
  next_fingerprint : Fingerprint
deriving DecidableEq, Repr

instance : Inhabited ForwardInstruction := ⟨⟨[], []⟩⟩

/-- Errors of the send-message path (control_protocol SendMessageError). -/
inductive SendMessageError
  | NoRoute
  | NoOnionPublic (fp : Fingerprint)
  | MessageTooBig
  | TooFar
deriving DecidableEq, Repr

/-- Fold over the consecutive-hop pairs of a route, as the windows(2)
map-collect in route_to_instructs does: the first missing identity yields
the NoOnionPublic error for that hop. -/
def route_hops_to_instructs (relay_graph : Fingerprint → Option IdentityDescriptor) :
    List (Fingerprint × Fingerprint) → Except SendMessageError (List ForwardInstruction)
  | [] => .ok []
  | hop :: rest =>
      match relay_graph hop.1 with
      | none => .error (.NoOnionPublic hop.1)
      | some idd =>
          match route_hops_to_instructs relay_graph rest with
          | .error e => .error e
          | .ok tl =>
              .ok ({ this_pubkey := idd.onion_pk, next_fingerprint := hop.2 } :: tl)

/-- Conversion of a route to forward instructions (daemon.rs,
route_to_instructs, lines 340-360).  windows(2) of the route is the zip of
the route with its own tail; each pair (this, next) contributes one
instruction built from the relay-graph identity of this and the fingerprint
next. -/
def route_to_instructs (relay_graph : Fingerprint → Option IdentityDescriptor)
    (route : List Fingerprint) : Except SendMessageError (List ForwardInstruction) :=
  route_hops_to_instructs relay_graph (route.zip route.tail)

/-- Haven locator stored in the DHT: haven identity, rendezvous point,
signature (daemon/haven.rs of the full tree). -/
structure HavenLocator where
  haven_fp : Fingerprint
  rendezvous_point : Fingerprint
  signature : ByteString
deriving DecidableEq, Repr

/-- DHT error surfaced by control operations (control_protocol DhtError). -/
inductive DhtError
  | NetworkFailure (msg : String)
deriving DecidableEq, Repr

/-- Control operation insert_rendezvous (control_protocol_impl.rs, lines
147-150): the statement self.ctx.dht_insert(locator).await; Ok(()) performs
the DHT insert, discards its outcome, and returns Ok(()) unconditionally.
The dht_insert argument stands for ctx.dht_insert, whose body (context.rs)
is outside src/; per the spec it validates the locator signature and sends
to the three nearest replicas, and DHT errors are of type DhtError. -/
def insert_rendezvous (dht_insert : HavenLocator → Except DhtError Unit)
    (locator : HavenLocator) : Except DhtError Unit :=
  let _discarded := dht_insert locator
  .ok ()

/-- An inbound-route configuration block (config InRouteConfig::Obfsudp):
listen address (abstract token) and secret string bytes. -/
structure InRouteObfsudp where
  listen : Nat
  secret : ByteString
deriving DecidableEq, Repr

/-- An outbound-route configuration block (config OutRouteConfig::Obfsudp). -/
structure OutRouteObfsudp where
  fingerprint : Fingerprint
  connect : Nat
  cookie : ByteString
deriving DecidableEq, Repr

/-- Control operation my_routes (control_protocol_impl.rs, lines 91-113):
each in-route (k, Obfsudp listen secret) is inverted into the out-route
(k, Obfsudp with fingerprint = own fingerprint, connect = listen, cookie =
public key of the obfsudp secret built from the BLAKE3 hash of the secret
bytes).  blake3_hash models blake3::hash and obfs_public_of_secret models
ObfsUdpSecret::from_bytes(..).to_public().as_bytes(), both external crates. -/
def my_routes (blake3_hash : ByteString → ByteString)
    (obfs_public_of_secret : ByteString → ByteString) (self_fp : Fingerprint)
    (in_routes : List (String × InRouteObfsudp)) : List (String × OutRouteObfsudp) :=
  in_routes.map fun kv =>
    (kv.1,
      { fingerprint := self_fp
        connect := kv.2.listen
        cookie := obfs_public_of_secret (blake3_hash kv.2.secret) })

/-- The label bytes of the string haven-up (haven.rs line 15). -/
def LABEL_HAVEN_UP : ByteString := [104, 97, 118, 101, 110, 45, 117, 112]

/-- The label bytes of the string haven-dn (haven.rs line 16). -/
def LABEL_HAVEN_DN : ByteString := [104, 97, 118, 101, 110, 45, 100, 110]

/-- Server half of the haven handshake (haven.rs ServerHandshake). -/
structure ServerHandshake where
  id_pk : ByteString
  eph_pk : ByteString
  sig : ByteString
deriving DecidableEq, Repr

/-- The encryption state of an established haven connection (haven.rs
HavenConnection): AEAD keys for the two directions. -/
structure HavenConnection where
  enc_key : ByteString
  dec_key : ByteString
deriving DecidableEq, Repr

/-- The external cryptography used by the client-side haven handshake:
BLAKE3 plain and keyed hashing, Diffie-Hellman shared secret between an
onion secret and an onion public, signature verification, the handshake
to-sign serialization, and the fingerprint of an identity public key. -/
structure HavenCrypto where
  blake3_hash : ByteString → ByteString
  blake3_keyed_hash : ByteString → ByteString → ByteString
  shared_secret : ByteString → ByteString → ByteString
  verify : ByteString → ByteString → ByteString → Bool
  hs_to_sign : ServerHandshake → ByteString
  fingerprint_of : ByteString → Fingerprint

/-- Tail of HavenConnection::connect after the ServerHandshake arrives
(haven.rs lines 100-121): verify the server signature, check the claimed
identity fingerprint, then derive the shared secret and the two direction
keys; the client encrypts with the haven-up key and decrypts with the
haven-dn key. -/
def haven_connect_finish (c : HavenCrypto) (my_osk : ByteString)
    (server_hs : ServerHandshake) (haven_fp : Fingerprint) :
    Except String HavenConnection :=
  if c.verify server_hs.id_pk (c.hs_to_sign server_hs) server_hs.sig = false then
    .error "server handshake signature verification failed"
  else if c.fingerprint_of server_hs.id_pk ≠ haven_fp then
    .error "spoofed source fingerprint for server handshake"
  else
    let shared_sec := c.shared_secret my_osk server_hs.eph_pk
    .ok { enc_key := c.blake3_keyed_hash (c.blake3_hash LABEL_HAVEN_UP) shared_sec
          dec_key := c.blake3_keyed_hash (c.blake3_hash LABEL_HAVEN_DN) shared_sec }

/-- A haven registration request, built from the identity secret
(haven RegisterHavenReq::new). -/
structure RegisterHavenReq where
  identity_sk : Nat
deriving DecidableEq, Repr

/-- Control operation register_haven (control_protocol_impl.rs, lines
64-72): build the request, call the alloc_forward global RPC on the
rendezvous relay under a 30-second timeout, and return unit.  The
alloc_forward_timed argument stands for the RPC composed with the timeout:
none models an elapsed timeout, some models the RPC finishing with its
result.  The binding of the call's value is discarded, exactly as the
expression statement in the source discards it. -/
def register_haven
    (alloc_forward_timed : RegisterHavenReq → Fingerprint → Option (Except String Unit))
    (identity_sk : Nat) (rendezvous_fp : Fingerprint) : Unit :=
  let req : RegisterHavenReq := { identity_sk := identity_sk }
  let _discarded := alloc_forward_timed req rendezvous_fp
  ()

/-- A concrete instantiation of the haven handshake cryptography, used to
evaluate the handshake at concrete inputs: hashing prepends a zero byte,
keyed hashing concatenates key and input, the shared secret concatenates
the two key parts, every signature verifies, and the fingerprint of any
identity key is 0x01. -/
def haven_crypto_example : HavenCrypto :=
  { blake3_hash := fun b => 0 :: b
    blake3_keyed_hash := fun k m => k ++ m
    shared_secret := fun a b => a ++ b
    verify := fun _ _ _ => true
    hs_to_sign := fun _ => []
    fingerprint_of := fun _ => [1] }

/-- A concrete server handshake used to evaluate the client handshake. -/
def server_hs_example : ServerHandshake :=
  { id_pk := [8], eph_pk := [6], sig := [] }

/-!
Theorems settling the claims, one per claim, with helper lemmas and
witnesses.
-/

/-- C5: the adjacency-signing step runs only when the local fingerprint is
lexicographically less than the neighbor's; when it runs it submits a
descriptor with left = local fingerprint, right = neighbor fingerprint,
unix_timestamp = now, and left_sig = the signature over the canonical
to-sign serialization of the unsigned descriptor; otherwise no RPC is
initiated. -/
theorem sign_adjacency_left_rule (to_sign : AdjacencyDescriptor → ByteString)
    (sign : ByteString → ByteString) (local_fp remote_fp : Fingerprint) (now : Nat) :
    (fpLt local_fp remote_fp = true →
      sign_adjacency to_sign sign local_fp remote_fp now =
        some { left := local_fp
               right := remote_fp
               left_sig := sign (to_sign
                 { left := local_fp, right := remote_fp, left_sig := [],
                   right_sig := [], unix_timestamp := now })
               right_sig := []
               unix_timestamp := now }) ∧
    (fpLt local_fp remote_fp = false →
      sign_adjacency to_sign sign local_fp remote_fp now = none) := by
  constructor
  · intro h
    simp [sign_adjacency, h]
  · intro h
    simp [sign_adjacency, h]

/-- Witness for C5 at concrete inputs: fingerprint 0x01 is below 0x02, so
the signing branch fires and produces the expected descriptor; in the
reverse direction no descriptor is produced. -/
theorem sign_adjacency_left_rule_witness :
    sign_adjacency (fun _ => [9]) (fun b => b) [1] [2] 77 =
      some { left := [1], right := [2], left_sig := [9], right_sig := [],
             unix_timestamp := 77 } ∧
    sign_adjacency (fun _ => [9]) (fun b => b) [2] [1] 77 = none := by
  constructor
  · exact (sign_adjacency_left_rule (fun _ => [9]) (fun b => b) [1] [2] 77).1 (by decide)
  · exact (sign_adjacency_left_rule (fun _ => [9]) (fun b => b) [2] [1] 77).2 (by decide)

/-- Case shape of terminal delivery: process_inner_pkt either fails, or
delivers the message into a bound queue with room, or files the reply
blocks under the source fingerprint. -/
theorem process_inner_pkt_shape (ctx : DaemonContext) (inner : InnerPacket)
    (src_fp dest_fp : Fingerprint) :
    (∃ e, process_inner_pkt ctx inner src_fp dest_fp = .error e) ∨
    (∃ ctx2 ep m q, process_inner_pkt ctx inner src_fp dest_fp =
        .ok (ctx2, .delivered ep m src_fp) ∧ ep.fingerprint = dest_fp ∧
        alist_get ctx.socket_recv_queues ep = some q ∧ q.length < QUEUE_CAPACITY) ∨
    (∃ ctx2 blocks, inner = .replyBlocks blocks ∧
        process_inner_pkt ctx inner src_fp dest_fp =
          .ok (ctx2, .filedReplyBlocks src_fp blocks.length)) := by
  cases inner with
  | message msg =>
      rcases hq : alist_get ctx.socket_recv_queues
          { fingerprint := dest_fp, dock := msg.dest_dock } with _ | q
      · left
        simp only [process_inner_pkt, hq]
        exact ⟨_, rfl⟩
      · by_cases hlen : q.length < QUEUE_CAPACITY
        · right; left
          simp only [process_inner_pkt, hq, hlen, if_true]
          exact ⟨_, _, msg, q, rfl, rfl, hq, hlen⟩
        · left
          simp only [process_inner_pkt, hq, hlen, if_false]
          exact ⟨_, rfl⟩
  | replyBlocks blocks =>
      right; right
      simp only [process_inner_pkt]
      exact ⟨_, blocks, rfl, rfl⟩

/-- C1: every raw packet consumed by the peel-forward loop has exactly one
of four outcomes: forwarded to a next hop present in the neighbor table,
delivered into the inbound queue of a socket bound at the destination
endpoint (with room below capacity), filed as reply blocks under the source
fingerprint, or dropped with a log message (in which case the daemon
context is unchanged). -/
theorem peel_forward_exactly_one_outcome
    (peel : RawPacket → Except String PeeledPacket)
    (degarble : Degarbler → ByteString → Except String (InnerPacket × Fingerprint))
    (ctx : DaemonContext) (pkt : RawPacket) :
    (∃ n p, peel_forward_step peel degarble ctx pkt = (ctx, .forwarded n p) ∧
       (alist_get ctx.table n).isSome = true) ∨
    (∃ ctx2 ep m s q, peel_forward_step peel degarble ctx pkt =
       (ctx2, .delivered ep m s) ∧
       alist_get ctx.socket_recv_queues ep = some q ∧ q.length < QUEUE_CAPACITY) ∨
    (∃ ctx2 s n, peel_forward_step peel degarble ctx pkt =
       (ctx2, .filedReplyBlocks s n)) ∨
    (∃ e, peel_forward_step peel degarble ctx pkt = (ctx, .droppedLog e)) := by
  rcases hp : peel pkt with e | peeled
  · right; right; right
    simp only [peel_forward_step, peel_forward_step_exc, hp]
    exact ⟨e, rfl⟩
  · cases peeled with
    | forward next_hop inner =>
        rcases hl : alist_get ctx.table next_hop with _ | c
        · right; right; right
          simp only [peel_forward_step, peel_forward_step_exc, hp, hl]
          exact ⟨_, rfl⟩
        · left
          refine ⟨next_hop, inner, ?_, by simp [hl]⟩
          simp only [peel_forward_step, peel_forward_step_exc, hp, hl]
    | received src_fp inner =>
        rcases process_inner_pkt_shape ctx inner src_fp ctx.identity_fp with
          ⟨e, he⟩ | ⟨ctx2, ep, m, q, hok, _, hq, hlen⟩ | ⟨ctx2, blocks, _, hok⟩
        · right; right; right
          simp only [peel_forward_step, peel_forward_step_exc, hp, he]
          exact ⟨e, rfl⟩
        · right; left
          refine ⟨ctx2, ep, m, src_fp, q, ?_, hq, hlen⟩
          simp only [peel_forward_step, peel_forward_step_exc, hp, hok]
        · right; right; left
          refine ⟨ctx2, src_fp, blocks.length, ?_⟩
          simp only [peel_forward_step, peel_forward_step_exc, hp, hok]
    | garbledReply id gpkt =>
        rcases hd : alist_get ctx.degarblers id with _ | dg
        · right; right; right
          simp only [peel_forward_step, peel_forward_step_exc, hp, hd]
          exact ⟨_, rfl⟩
        · rcases hg : degarble dg gpkt with e | iv
          · right; right; right
            simp only [peel_forward_step, peel_forward_step_exc, hp, hd, hg]
            exact ⟨e, rfl⟩
          · rcases process_inner_pkt_shape ctx iv.1 iv.2 dg.anon_fp with
              ⟨e, he⟩ | ⟨ctx2, ep, m, q, hok, _, hq, hlen⟩ | ⟨ctx2, blocks, _, hok⟩
            · right; right; right
              simp only [peel_forward_step, peel_forward_step_exc, hp, hd]
              simp only [hg, he]
              exact ⟨e, rfl⟩
            · right; left
              refine ⟨ctx2, ep, m, iv.2, q, ?_, hq, hlen⟩
              simp only [peel_forward_step, peel_forward_step_exc, hp, hd]
              simp only [hg, hok]
            · right; right; left
              refine ⟨ctx2, iv.2, blocks.length, ?_⟩
              simp only [peel_forward_step, peel_forward_step_exc, hp, hd]
              simp only [hg, hok]

/-- A delivery failure makes the loop body end in an error. -/
theorem delivery_failure_exc_error
    (peel : RawPacket → Except String PeeledPacket)
    (degarble : Degarbler → ByteString → Except String (InnerPacket × Fingerprint))
    (ctx : DaemonContext) (pkt : RawPacket)
    (h : delivery_failure peel degarble ctx pkt) :
    ∃ e, peel_forward_step_exc peel degarble ctx pkt = .error e := by
  rcases h with ⟨n, p, hp, hl⟩ | ⟨s, m, hp, hq⟩ | ⟨id, g, hp, hd⟩ |
    ⟨id, g, dg, s, m, hp, hd, hg, hq⟩
  · simp only [peel_forward_step_exc, hp, hl]
    exact ⟨_, rfl⟩
  · rcases hq with hnone | ⟨q, hsome, hfull⟩
    · simp only [peel_forward_step_exc, hp, process_inner_pkt, hnone]
      exact ⟨_, rfl⟩
    · simp only [peel_forward_step_exc, hp, process_inner_pkt, hsome]
      rw [if_neg (Nat.not_lt.mpr hfull)]
      exact ⟨_, rfl⟩
  · simp only [peel_forward_step_exc, hp, hd]
    exact ⟨_, rfl⟩
  · rcases hq with hnone | ⟨q, hsome, hfull⟩
    · simp only [peel_forward_step_exc, hp, hd]
      simp only [hg, process_inner_pkt, hnone]
      exact ⟨_, rfl⟩
    · simp only [peel_forward_step_exc, hp, hd]
      simp only [hg, process_inner_pkt, hsome]
      rw [if_neg (Nat.not_lt.mpr hfull)]
      exact ⟨_, rfl⟩

/-- C2: on a delivery failure (full destination queue, unbound destination
endpoint, missing degarbler, or next hop absent from the neighbor table),
only the offending packet is dropped with a log message: the daemon
context is unchanged, no error is reported to any caller (the supervised
run is a total function into outcome lists), and the engine processes all
subsequent packets exactly as it would have without the failing packet. -/
theorem peel_forward_failure_drop_and_continue
    (peel : RawPacket → Except String PeeledPacket)
    (degarble : Degarbler → ByteString → Except String (InnerPacket × Fingerprint))
    (ctx : DaemonContext) (pkt : RawPacket)
    (h : delivery_failure peel degarble ctx pkt) :
    (∃ e, peel_forward_step peel degarble ctx pkt = (ctx, .droppedLog e)) ∧
    (∀ ps, peel_forward_run peel degarble ctx (pkt :: ps) =
       ((peel_forward_run peel degarble ctx ps).1,
        (peel_forward_step peel degarble ctx pkt).2 ::
          (peel_forward_run peel degarble ctx ps).2)) := by
  obtain ⟨e, he⟩ := delivery_failure_exc_error peel degarble ctx pkt h
  have hstep : peel_forward_step peel degarble ctx pkt = (ctx, .droppedLog e) := by
    simp only [peel_forward_step, he]
  refine ⟨⟨e, hstep⟩, ?_⟩
  intro ps
  simp only [peel_forward_run, hstep]

/-- Witness for C2 at concrete inputs: a packet peeling to a forward whose
next hop 0x03 is not in the (empty) neighbor table is dropped with the
lookup log message, and the run over this packet followed by another packet
produces the drop followed by the unchanged processing of the rest. -/
theorem peel_forward_failure_drop_and_continue_witness :
    (∃ e, peel_forward_step (fun _ => .ok (.forward [3] [9]))
        (fun _ _ => .error "no degarble")
        { identity_fp := [7], table := [], socket_recv_queues := [],
          anon_destinations := [], degarblers := [] } [0] =
      ({ identity_fp := [7], table := [], socket_recv_queues := [],
         anon_destinations := [], degarblers := [] }, .droppedLog e)) ∧
    peel_forward_run (fun _ => .ok (.forward [3] [9]))
        (fun _ _ => .error "no degarble")
        { identity_fp := [7], table := [], socket_recv_queues := [],
          anon_destinations := [], degarblers := [] } [[0], [5]] =
      ((peel_forward_run (fun _ => .ok (.forward [3] [9]))
          (fun _ _ => .error "no degarble")
          { identity_fp := [7], table := [], socket_recv_queues := [],
            anon_destinations := [], degarblers := [] } [[5]]).1,
       (peel_forward_step (fun _ => .ok (.forward [3] [9]))
          (fun _ _ => .error "no degarble")
          { identity_fp := [7], table := [], socket_recv_queues := [],
            anon_destinations := [], degarblers := [] } [0]).2 ::
         (peel_forward_run (fun _ => .ok (.forward [3] [9]))
            (fun _ _ => .error "no degarble")
            { identity_fp := [7], table := [], socket_recv_queues := [],
              anon_destinations := [], degarblers := [] } [[5]]).2) := by
  have h := peel_forward_failure_drop_and_continue
    (fun _ => .ok (.forward [3] [9])) (fun _ _ => .error "no degarble")
    { identity_fp := [7], table := [], socket_recv_queues := [],
      anon_destinations := [], degarblers := [] } [0]
    (Or.inl ⟨[3], [9], rfl, rfl⟩)
  exact ⟨h.1, h.2 [[5]]⟩

/-- C3, evaluated at the failing input: the registry written by the socket
bind of daemon/socket.rs is keyed by the dock alone, so binding a second
socket on dock 5 (regardless of identity) replaces the first socket's
queue instead of registering a distinct queue under a distinct
(fingerprint, dock) endpoint; after the two binds the registry holds a
single entry and lookup of dock 5 yields only the second channel. -/
theorem socket_bind_keys_by_dock_only :
    (socket_bind [] (some "idA") 5 1).1 = [(5, 1)] ∧
    (socket_bind (socket_bind [] (some "idA") 5 1).1 (some "idB") 5 2).1 = [(5, 2)] ∧
    alist_get (socket_bind (socket_bind [] (some "idA") 5 1).1 (some "idB") 5 2).1 5 =
      some 2 ∧
    (socket_bind (socket_bind [] (some "idA") 5 1).1 (some "idB") 5 2).1.length = 1 := by
  decide

/-- C4: a forward request whose destination fingerprint is a registered
haven is memoized as (src, dest) and forwarded as (inner, src) to dest;
with an unregistered destination, a previously memoized (dest, src) pair
still makes it forwarded unchanged (the server-to-client return
direction), and otherwise it is dropped with a warning; in particular,
after any request from a client to a registered haven, the haven's reply
to that client is forwarded even though the client is not a registered
haven. -/
theorem rendezvous_forward_rule (st : RdvState) (inner : ByteString)
    (src dest : Endpoint) :
    (dest.fingerprint ∈ st.registered_havens →
      rendezvous_forward_once st inner src dest =
        ({ st with seen_srcs := (src, dest) :: st.seen_srcs },
         .forwarded (inner, src) dest)) ∧
    (dest.fingerprint ∉ st.registered_havens → (dest, src) ∈ st.seen_srcs →
      rendezvous_forward_once st inner src dest =
        (st, .forwarded (inner, src) dest)) ∧
    (dest.fingerprint ∉ st.registered_havens → (dest, src) ∉ st.seen_srcs →
      rendezvous_forward_once st inner src dest =
        (st, .droppedWarn dest.fingerprint)) ∧
    (∀ inner2 client haven, haven.fingerprint ∈ st.registered_havens →
      (rendezvous_forward_once
        (rendezvous_forward_once st inner client haven).1 inner2 haven client).2 =
        .forwarded (inner2, haven) client) := by
  refine ⟨?_, ?_, ?_, ?_⟩
  · intro hm
    simp [rendezvous_forward_once, hm]
  · intro hm hs
    simp [rendezvous_forward_once, hm, hs]
  · intro hm hs
    simp [rendezvous_forward_once, hm, hs]
  · intro inner2 client haven hm
    have h1 : rendezvous_forward_once st inner client haven =
        ({ st with seen_srcs := (client, haven) :: st.seen_srcs },
         .forwarded (inner, client) haven) := by
      simp [rendezvous_forward_once, hm]
    rw [h1]
    simp [rendezvous_forward_once]

/-- Witness for C4 at concrete inputs: relay with registered haven 0x0a;
a request from the client endpoint (0x14, 200) to the haven endpoint
(0x0a, 100) is memoized and forwarded, and the haven's reply back to the
client is then forwarded although 0x14 is not a registered haven. -/
theorem rendezvous_forward_rule_witness :
    rendezvous_forward_once { registered_havens := [[10]], seen_srcs := [] } [1]
        { fingerprint := [20], dock := 200 } { fingerprint := [10], dock := 100 } =
      ({ registered_havens := [[10]],
         seen_srcs := [({ fingerprint := [20], dock := 200 },
                        { fingerprint := [10], dock := 100 })] },
       .forwarded ([1], { fingerprint := [20], dock := 200 })
         { fingerprint := [10], dock := 100 }) ∧
    (rendezvous_forward_once
        (rendezvous_forward_once { registered_havens := [[10]], seen_srcs := [] } [1]
          { fingerprint := [20], dock := 200 }
          { fingerprint := [10], dock := 100 }).1 [2]
        { fingerprint := [10], dock := 100 } { fingerprint := [20], dock := 200 }).2 =
      .forwarded ([2], { fingerprint := [10], dock := 100 })
        { fingerprint := [20], dock := 200 } := by
  have h := rendezvous_forward_rule { registered_havens := [[10]], seen_srcs := [] } [1]
    { fingerprint := [20], dock := 200 } { fingerprint := [10], dock := 100 }
  exact ⟨h.1 (by decide),
    h.2.2.2 [2] { fingerprint := [20], dock := 200 }
      { fingerprint := [10], dock := 100 } (by decide)⟩

/-- The first components of the consecutive-hop pairs of a route are the
route without its last element. -/
theorem zip_tail_map_fst {α : Type} : ∀ (l : List α),
    (l.zip l.tail).map Prod.fst = l.dropLast
  | [] => rfl
  | [_] => rfl
  | a :: b :: r => by
      have ih := zip_tail_map_fst (b :: r)
      simpa using ih

/-- If every pair's first hop has an identity, the hop fold succeeds and
produces one instruction per pair, built from that identity's onion key and
the pair's second hop. -/
theorem route_hops_ok (g : Fingerprint → Option IdentityDescriptor) :
    ∀ (pairs : List (Fingerprint × Fingerprint)),
    (∀ p ∈ pairs, (g p.1).isSome = true) →
    ∃ instrs, route_hops_to_instructs g pairs = .ok instrs ∧
      instrs.length = pairs.length ∧
      ∀ pr ∈ pairs.zip instrs, ∃ idd, g pr.1.1 = some idd ∧
        pr.2 = { this_pubkey := idd.onion_pk, next_fingerprint := pr.1.2 } := by
  intro pairs
  induction pairs with
  | nil =>
      intro _
      exact ⟨[], rfl, rfl, by simp⟩
  | cons hop rest ih =>
      intro h
      have hhead := h hop (List.mem_cons_self hop rest)
      rcases hg : g hop.1 with _ | idd
      · rw [hg] at hhead
        simp at hhead
      · obtain ⟨tl, htl, hlen, hall⟩ :=
          ih (fun p hp => h p (List.mem_cons_of_mem hop hp))
        refine ⟨{ this_pubkey := idd.onion_pk, next_fingerprint := hop.2 } :: tl,
          ?_, ?_, ?_⟩
        · simp only [route_hops_to_instructs, hg, htl]
        · simp [hlen]
        · intro pr hpr
          rw [List.zip_cons_cons, List.mem_cons] at hpr
          rcases hpr with rfl | hpr2
          · exact ⟨idd, hg, rfl⟩
          · exact hall pr hpr2

/-- If some pair's first hop lacks an identity, the hop fold fails with
NoOnionPublic of a first-hop fingerprint that lacks an identity. -/
theorem route_hops_err (g : Fingerprint → Option IdentityDescriptor) :
    ∀ (pairs : List (Fingerprint × Fingerprint)),
    (∃ p ∈ pairs, g p.1 = none) →
    ∃ fp, fp ∈ pairs.map Prod.fst ∧ g fp = none ∧
      route_hops_to_instructs g pairs = .error (.NoOnionPublic fp) := by
  intro pairs
  induction pairs with
  | nil =>
      intro h
      simp at h
  | cons hop rest ih =>
      intro h
      rcases hg : g hop.1 with _ | idd
      · refine ⟨hop.1, by simp, hg, ?_⟩
        simp only [route_hops_to_instructs, hg]
      · have hrest : ∃ p ∈ rest, g p.1 = none := by
          rcases h with ⟨p, hp, hpn⟩
          rcases List.mem_cons.mp hp with rfl | hp2
          · rw [hg] at hpn
            cases hpn
          · exact ⟨p, hp2, hpn⟩
        obtain ⟨fp, hfp, hfpn, herr⟩ := ih hrest
        refine ⟨fp, by simp [hfp], hfpn, ?_⟩
        simp only [route_hops_to_instructs, hg, herr]

/-- C6 counterexample: the conversion never consults the identity of the
last hop of the route, so a route whose final hop lacks an onion public key
in the relay graph still converts successfully — refuting the claim that
the conversion fails whenever any identity on the route lacks an onion
public key. -/
theorem route_to_instructs_counterexample :
    (fun fp => if fp = [1] then some { onion_pk := [7] } else none :
      Fingerprint → Option IdentityDescriptor) [2] = none ∧
    [2] ∈ ([[1], [2]] : List Fingerprint) ∧
    route_to_instructs
      (fun fp => if fp = [1] then some { onion_pk := [7] } else none) [[1], [2]] =
      .ok [{ this_pubkey := [7], next_fingerprint := [2] }] := by
  refine ⟨by decide, by decide, rfl⟩

/-- C6 amended: for a route of n at least 1 hops, if each of the first
n - 1 hops has an identity in the relay graph the conversion yields exactly
n - 1 instructions, the i-th built from the onion public key of hop i and
the fingerprint of hop i + 1 (stated by pairing the consecutive-hop pairs
with the instructions); and if any of the first n - 1 hops lacks an
identity, the conversion fails with NoOnionPublic of such a hop.  The last
hop's identity is never consulted. -/
theorem route_to_instructs_rule (g : Fingerprint → Option IdentityDescriptor)
    (route : List Fingerprint) (_hne : route ≠ []) :
    ((∀ fp ∈ route.dropLast, (g fp).isSome = true) →
      ∃ instrs, route_to_instructs g route = .ok instrs ∧
        instrs.length = route.length - 1 ∧
        ∀ pr ∈ (route.zip route.tail).zip instrs,
          ∃ idd, g pr.1.1 = some idd ∧
            pr.2 = { this_pubkey := idd.onion_pk, next_fingerprint := pr.1.2 }) ∧
    ((∃ fp ∈ route.dropLast, g fp = none) →
      ∃ fp, fp ∈ route.dropLast ∧ g fp = none ∧
        route_to_instructs g route = .error (.NoOnionPublic fp)) := by
  have hfst := zip_tail_map_fst route
  have hplen : (route.zip route.tail).length = route.length - 1 := by
    rw [List.length_zip, List.length_tail]
    exact Nat.min_eq_right (Nat.sub_le route.length 1)
  constructor
  · intro hall
    obtain ⟨instrs, hok, hlen, helts⟩ := route_hops_ok g (route.zip route.tail)
      (by
        intro p hp
        apply hall
        rw [← hfst]
        exact List.mem_map_of_mem Prod.fst hp)
    exact ⟨instrs, hok, by rw [hlen, hplen], helts⟩
  · intro hsome
    obtain ⟨fp, hfp, hnone⟩ := hsome
    rw [← hfst] at hfp
    obtain ⟨p, hp, hpeq⟩ := List.mem_map.mp hfp
    obtain ⟨fp2, hfp2, hfp2n, herr⟩ := route_hops_err g (route.zip route.tail)
      ⟨p, hp, by rw [hpeq]; exact hnone⟩
    refine ⟨fp2, ?_, hfp2n, herr⟩
    rw [← hfst]
    exact hfp2

/-- Witness for C6 amended at a concrete input: on the route 0x01, 0x02,
0x03 where the first two hops have identities, the conversion succeeds
with two instructions pairing each hop's onion key with the next hop. -/
theorem route_to_instructs_rule_witness :
    ∃ instrs, route_to_instructs
        (fun fp => if fp = [3] then none else
          some ({ onion_pk := fp ++ [9] } : IdentityDescriptor))
        [[1], [2], [3]] = .ok instrs ∧
      instrs.length = ([[1], [2], [3]] : List Fingerprint).length - 1 ∧
      ∀ pr ∈ (([[1], [2], [3]] : List Fingerprint).zip
          ([[1], [2], [3]] : List Fingerprint).tail).zip instrs,
        ∃ idd, (fun fp => if fp = [3] then none else
            some ({ onion_pk := fp ++ [9] } : IdentityDescriptor)) pr.1.1 = some idd ∧
          pr.2 = { this_pubkey := idd.onion_pk, next_fingerprint := pr.1.2 } :=
  (route_to_instructs_rule
    (fun fp => if fp = [3] then none else
      some ({ onion_pk := fp ++ [9] } : IdentityDescriptor))
    [[1], [2], [3]] (by decide)).1 (by decide)

/-- C7 counterexample: when the underlying DHT insert fails with a
DhtError, insert_rendezvous nevertheless returns Ok(()) — the failure does
not surface to the caller, refuting the claim. -/
theorem insert_rendezvous_counterexample :
    (fun _ => .error (.NetworkFailure "dht send timed out") :
        HavenLocator → Except DhtError Unit)
      { haven_fp := [1], rendezvous_point := [2], signature := [] } =
      .error (.NetworkFailure "dht send timed out") ∧
    insert_rendezvous (fun _ => .error (.NetworkFailure "dht send timed out"))
      { haven_fp := [1], rendezvous_point := [2], signature := [] } = .ok () :=
  ⟨rfl, rfl⟩

/-- C7 amended: insert_rendezvous returns Ok(()) unconditionally; the
outcome of the underlying DHT insert is discarded and never reported to
the caller. -/
theorem insert_rendezvous_always_ok
    (dht_insert : HavenLocator → Except DhtError Unit) (locator : HavenLocator) :
    insert_rendezvous dht_insert locator = .ok () :=
  rfl

/-- C8: for every configured in-route (name, listen, secret), my_routes
contains the entry (name, out-route) whose fingerprint is the node's own,
whose connect address is the in-route's listen address, and whose cookie is
the public key derived from the BLAKE3 hash of the in-route's secret;
moreover the returned names are exactly the in-route names. -/
theorem my_routes_inverts_in_routes
    (blake3_hash obfs_public_of_secret : ByteString → ByteString)
    (self_fp : Fingerprint) (in_routes : List (String × InRouteObfsudp))
    (name : String) (cfg : InRouteObfsudp) (h : (name, cfg) ∈ in_routes) :
    (name, ({ fingerprint := self_fp, connect := cfg.listen,
              cookie := obfs_public_of_secret (blake3_hash cfg.secret) } :
            OutRouteObfsudp)) ∈
      my_routes blake3_hash obfs_public_of_secret self_fp in_routes ∧
    (my_routes blake3_hash obfs_public_of_secret self_fp in_routes).map Prod.fst =
      in_routes.map Prod.fst := by
  constructor
  · have hm := List.mem_map_of_mem
      (fun kv : String × InRouteObfsudp =>
        (kv.1, ({ fingerprint := self_fp, connect := kv.2.listen,
                  cookie := obfs_public_of_secret (blake3_hash kv.2.secret) } :
                OutRouteObfsudp))) h
    simpa [my_routes] using hm
  · simp [my_routes]

/-- Witness for C8 at a concrete input: one in-route named main with
listen address 11 and secret 0x05 is inverted into the out-route with the
own fingerprint 0x0c, connect 11, and the cookie derived from the hashed
secret. -/
theorem my_routes_inverts_in_routes_witness :
    ("main", ({ fingerprint := [12], connect := 11,
                cookie := (fun b => 1 :: b) ((fun b => 0 :: b) [5]) } :
              OutRouteObfsudp)) ∈
      my_routes (fun b => 0 :: b) (fun b => 1 :: b) [12]
        [("main", { listen := 11, secret := [5] })] ∧
    (my_routes (fun b => 0 :: b) (fun b => 1 :: b) [12]
        [("main", { listen := 11, secret := [5] })]).map Prod.fst =
      ([("main", ({ listen := 11, secret := [5] } : InRouteObfsudp))]).map Prod.fst :=
  my_routes_inverts_in_routes (fun b => 0 :: b) (fun b => 1 :: b) [12]
    [("main", { listen := 11, secret := [5] })] "main" { listen := 11, secret := [5] }
    (List.mem_singleton.mpr rfl)

/-- C9: after a successful client-side haven handshake, the connection
encrypts with the key obtained by keyed-BLAKE3 of the Diffie-Hellman
shared secret (client ephemeral secret with server ephemeral public) under
the hash of the label haven-up, and decrypts with the one keyed under the
hash of the label haven-dn. -/
theorem haven_connect_keys (c : HavenCrypto) (my_osk : ByteString)
    (server_hs : ServerHandshake) (haven_fp : Fingerprint) (conn : HavenConnection)
    (h : haven_connect_finish c my_osk server_hs haven_fp = .ok conn) :
    conn.enc_key = c.blake3_keyed_hash (c.blake3_hash LABEL_HAVEN_UP)
      (c.shared_secret my_osk server_hs.eph_pk) ∧
    conn.dec_key = c.blake3_keyed_hash (c.blake3_hash LABEL_HAVEN_DN)
      (c.shared_secret my_osk server_hs.eph_pk) := by
  rw [haven_connect_finish] at h
  split at h
  · cases h
  · split at h
    · cases h
    · rw [Except.ok.injEq] at h
      rw [← h]
      exact ⟨rfl, rfl⟩

/-- Witness for C9 at concrete inputs: with the example cryptography the
handshake succeeds and the established connection carries exactly the
haven-up key in the encrypt direction and the haven-dn key in the decrypt
direction. -/
theorem haven_connect_keys_witness :
    ({ enc_key := (0 :: LABEL_HAVEN_UP) ++ [4, 6],
       dec_key := (0 :: LABEL_HAVEN_DN) ++ [4, 6] } : HavenConnection).enc_key =
      haven_crypto_example.blake3_keyed_hash
        (haven_crypto_example.blake3_hash LABEL_HAVEN_UP)
        (haven_crypto_example.shared_secret [4] server_hs_example.eph_pk) ∧
    ({ enc_key := (0 :: LABEL_HAVEN_UP) ++ [4, 6],
       dec_key := (0 :: LABEL_HAVEN_DN) ++ [4, 6] } : HavenConnection).dec_key =
      haven_crypto_example.blake3_keyed_hash
        (haven_crypto_example.blake3_hash LABEL_HAVEN_DN)
        (haven_crypto_example.shared_secret [4] server_hs_example.eph_pk) :=
  haven_connect_keys haven_crypto_example [4] server_hs_example [1]
    { enc_key := (0 :: LABEL_HAVEN_UP) ++ [4, 6],
      dec_key := (0 :: LABEL_HAVEN_DN) ++ [4, 6] } rfl

/-- C10: register_haven returns unit for every outcome of the alloc_forward
RPC under its timeout — success, failure, or elapsed timeout — and its
result does not depend on that outcome at all, so the caller is never
informed of a registration failure. -/
theorem register_haven_reports_nothing
    (f g : RegisterHavenReq → Fingerprint → Option (Except String Unit))
    (sk : Nat) (fp : Fingerprint) :
    register_haven f sk fp = () ∧ register_haven f sk fp = register_haven g sk fp :=
  ⟨rfl, rfl⟩

end Earendil
